import Mathlib

/-!
Verification of the scraping_ts repository's core logic: the bounded worker
pools (`asyncPool` in src/main_file/scrape_job.ts and
src/main_file/scrape_job_details.ts), the pagination loops
(`scrapeAllJobTitles` in both src/scrape_job.ts and
src/main_file/scrape_job.ts), the deduplication map, the filter-map builder
(`buildFilterMap`), the salary extraction helpers, and the role-level lookup
(`getRoleLevel` in src/unnamed/part_000).

Network fetches are modelled as pure functions supplied as parameters
(page number to parsed items, or to an `Except` value when transport
failure matters); each definition mirrors the control flow of the cited
TypeScript function.  Unbounded `while` loops are given an explicit fuel
parameter; the theorems either hold for every fuel or quantify over a
sufficiently large one.
-/

namespace ScrapeJob

/-- Item reference of src/scrape_job.ts (interface JobLink there has only
`title` and `url`; the dedup key is `url`). -/
structure JobLink where
  title : String
  url : String
deriving DecidableEq

/-- JS `Map.set` on an insertion-ordered association list: an existing key
keeps its position and gets the new value; a new key is appended. -/
def mapSet {α : Type} (store : List (String × α)) (k : String) (v : α) :
    List (String × α) :=
  match store with
  | [] => [(k, v)]
  | (k', v') :: rest =>
    if k' = k then (k', v) :: rest else (k', v') :: mapSet rest k v

/-- JS `Map.get`. -/
def mapGet {α : Type} (store : List (String × α)) (k : String) : Option α :=
  match store with
  | [] => none
  | (k', v') :: rest => if k' = k then some v' else mapGet rest k

/-- The Dedup Store `Insert` operation as realised in src/scrape_job.ts:
`uniqueJobs.set(job.url, job)`; `wasNew` is the size growth the source
observes via `uniqueJobs.size > beforeSize`, equivalent to key absence. -/
def dedupInsert (store : List (String × JobLink)) (job : JobLink) :
    List (String × JobLink) × Bool :=
  (mapSet store job.url job, (mapGet store job.url).isNone)

/-- Insert every job of one fetched page, in page order
(`jobsOnPage.forEach((job) => uniqueJobs.set(job.url, job))`). -/
def insertAll (store : List (String × JobLink)) (jobs : List JobLink) :
    List (String × JobLink) :=
  match jobs with
  | [] => store
  | j :: rest => insertAll (mapSet store j.url j) rest

/-- `Map.values()` in insertion order. -/
def mapValues {α : Type} (store : List (String × α)) : List α :=
  store.map Prod.snd

/-- The no-new-items pagination loop of src/scrape_job.ts
`scrapeAllJobTitles`: starting from `page`, fetch a page, insert its jobs
into the dedup map, and continue iff the map grew
(`hasNewData = uniqueJobs.size > beforeSize`).  Returns the final store and
the number of fetch calls made.  `fuel` bounds the unbounded `while`. -/
def scrapeNoNewLoop (fetch : Nat → List JobLink) (page : Nat)
    (store : List (String × JobLink)) : Nat → List (String × JobLink) × Nat
  | 0 => (store, 0)
  | fuel + 1 =>
    let pageJobs := fetch page
    let store' := insertAll store pageJobs
    if store.length < store'.length then
      let rest := scrapeNoNewLoop fetch (page + 1) store' fuel
      (rest.1, rest.2 + 1)
    else
      (store', 1)

/-- src/scrape_job.ts `scrapeAllJobTitles`: run the loop from page 1 on an
empty map and return the deduplicated jobs in insertion order. -/
def scrapeAllJobTitles (fetch : Nat → List JobLink) (fuel : Nat) :
    List JobLink :=
  mapValues (scrapeNoNewLoop fetch 1 [] fuel).1

/-- The spec's fake fetcher: pages [A,B], [B,C], [C,C], [] in that order. -/
def jobA : JobLink := ⟨"A", "urlA"⟩

def jobB : JobLink := ⟨"B", "urlB"⟩

def jobC : JobLink := ⟨"C", "urlC"⟩

def fakeFetcher : Nat → List JobLink
  | 1 => [jobA, jobB]
  | 2 => [jobB, jobC]
  | 3 => [jobC, jobC]
  | 4 => []
  | _ => []

end ScrapeJob

namespace MainScrapeJob

/-- Item reference of src/main_file/scrape_job.ts (interface JobLink:
id, title, url). -/
structure JobLink where
  id : String
  title : String
  url : String
deriving DecidableEq

/-- Abstract outcome of one asynchronous task handed to `asyncPool`:
`res = none` models a rejected promise, `res = some r` a promise fulfilled
with `r`; `time` is the instant at which the task settles (tasks started
together settle in `time` order, ties in start order). -/
structure JTask (R : Type) where
  res : Option R
  time : Nat
deriving DecidableEq

/-- Split a list into consecutive chunks of size `n` (`n ≥ 1`; the last
chunk may be shorter).  Structural recursion on a fuel that starts at the
list length (each step consumes at least the head, so it never runs out). -/
def chunkListAux {α : Type} (n : Nat) : Nat → List α → List (List α)
  | _, [] => []
  | 0, _ => []
  | fuel + 1, x :: xs => (x :: xs.take (n - 1)) :: chunkListAux n fuel (xs.drop (n - 1))

/-- Chunks of size `n` of `l`. -/
def chunkList {α : Type} (n : Nat) (l : List α) : List (List α) :=
  chunkListAux n l.length l

/-- `asyncPool` of src/main_file/scrape_job.ts.  The loop starts each task
immediately; once `executing.length >= poolLimit` it awaits
`Promise.race` and then `Promise.allSettled(executing)` — which waits for
the whole current batch — and removes every settled entry (the
`.catch(() => {})` makes all of them fulfilled).  So tasks run in batches
of `max poolLimit 1`; each fulfilled task appends its result to `results`
at the moment it settles, i.e. in settle-time order within the batch, and
a rejected task appends nothing (`.catch(() => {})` discards it). -/
def asyncPool {R : Type} (poolLimit : Nat) (tasks : List (JTask R)) :
    List R :=
  (chunkList (max poolLimit 1) tasks).flatMap fun chunk =>
    (chunk.insertionSort fun a b => a.time ≤ b.time).filterMap JTask.res

/-- The batched pagination loop of src/main_file/scrape_job.ts
`scrapeAllJobTitles`: each iteration fetches pages
`page, page+1, ..., page+4` (CONCURRENCY_LIMIT = 5) via `Promise.all`;
every task whose page came back empty sets `hasMore = false`; all fetched
jobs of the batch are appended in page order; the `while (hasMore)` test
runs only after the batch settles.  Returns collected jobs and the number
of batches executed; `fuel` bounds the unbounded `while`. -/
def scrapeBatches (fetch : Nat → List JobLink) (page : Nat) :
    Nat → List JobLink × Nat
  | 0 => ([], 0)
  | fuel + 1 =>
    let batch := (List.range 5).map fun i => fetch (page + i)
    let jobs := batch.flatten
    if batch.any List.isEmpty then
      (jobs, 1)
    else
      let rest := scrapeBatches fetch (page + 5) fuel
      (jobs ++ rest.1, rest.2 + 1)

/-- src/main_file/scrape_job.ts `scrapeAllJobTitles`, starting at page 1. -/
def scrapeAllJobTitles (fetch : Nat → List JobLink) (fuel : Nat) :
    List JobLink :=
  (scrapeBatches fetch 1 fuel).1

end MainScrapeJob

namespace Details

/-- `asyncPool` of src/main_file/scrape_job_details.ts: it pushes the task
promises into `ret` in submission order and returns `Promise.all(ret)`, so
when every task fulfils, the output is the fulfilment values in input
order; when some task rejects, `Promise.all` rejects and no positional
output list is produced.  A task is modelled by its settled outcome
(`Except E R`).  The `limit` argument only throttles start times (the
`executing` bookkeeping); it does not influence the returned values, so
the model carries it unused.  (`Promise.all` rejects with the temporally
first rejection; this model surfaces the positionally first — the
theorems below use it only on runs with at most the fact of a rejection.) -/
def asyncPool {E R : Type} (limit : Nat) (tasks : List (Except E R)) :
    Except E (List R) :=
  match tasks with
  | [] => .ok []
  | t :: ts =>
    match t with
    | .error e => .error e
    | .ok r =>
      match asyncPool limit ts with
      | .ok rs => .ok (r :: rs)
      | .error e => .error e

/-- JS truthiness on strings applied by `a || b`: the empty string and a
missing value fall through to the default. -/
def jsOr (v : Option String) (dflt : String) : String :=
  match v with
  | some s => if s = "" then dflt else s
  | none => dflt

/-- `ROLE_LEVELS` of src/main_file/scrape_job_details.ts. -/
def ROLE_LEVELS : Nat → Option String
  | 1 => some "Intern"
  | 2 => some "Entry Level"
  | 3 => some "Associate"
  | 4 => some "Mid Level"
  | 5 => some "Senior"
  | 6 => some "Team Lead"
  | 7 => some "General Manager"
  | 8 => some "Executive/Director"
  | _ => none

/-- One filter value's pagination loop inside `buildFilterMap`
(src/main_file/scrape_job_details.ts lines 166-184): starting at `page`,
fetch; an empty link list breaks the loop; otherwise record
`map[jobId] = label` for every link and continue with `page + 1`.  There
is no `try`/`catch`: a transport failure (`Except.error`) propagates out
of the loop and out of `buildFilterMap`.  `fuel` bounds the `while
(true)`. -/
def buildFilterPages (fetch : Nat → Nat → Except Unit (List String))
    (filterId : Nat) (label : String) (map : List (String × String))
    (page : Nat) : Nat → Except Unit (List (String × String))
  | 0 => .ok map
  | fuel + 1 =>
    match fetch filterId page with
    | .error e => .error e
    | .ok [] => .ok map
    | .ok links =>
      let map' := links.foldl (fun m jobId => ScrapeJob.mapSet m jobId label) map
      buildFilterPages fetch filterId label map' (page + 1) fuel

/-- `buildFilterMap` (src/main_file/scrape_job_details.ts lines 157-188):
for each filter id, paginate with that filter applied, recording every
discovered job id against `sourceMap[id] || "Not Found"`.  Errors
propagate: a failed fetch aborts the whole map construction. -/
def buildFilterMap (fetch : Nat → Nat → Except Unit (List String))
    (ids : List Nat) (sourceMap : Nat → Option String)
    (map : List (String × String)) (fuel : Nat) :
    Except Unit (List (String × String)) :=
  match ids with
  | [] => .ok map
  | id :: rest =>
    match buildFilterPages fetch id (jsOr (sourceMap id) "Not Found") map 1 fuel with
    | .error e => .error e
    | .ok map' => buildFilterMap fetch rest sourceMap map' fuel

/-- The classification fields of `getJobDetails`
(src/main_file/scrape_job_details.ts lines 215-216):
`roleMap[job.id] || "Not Found"` and `industryMap[job.id] || "Not Found"`. -/
def classificationField (map : List (String × String)) (jobId : String) :
    String :=
  jsOr (ScrapeJob.mapGet map jobId) "Not Found"

/-- Runs of JS whitespace collapsed to a single space
(`t.replace(/\s+/g, " ")`); fuel starts at the string length. -/
def collapseWsAux : Nat → List Char → List Char
  | 0, _ => []
  | _ + 1, [] => []
  | fuel + 1, c :: cs =>
    if c.isWhitespace then ' ' :: collapseWsAux fuel (cs.dropWhile Char.isWhitespace)
    else c :: collapseWsAux fuel cs

/-- `t.replace(/\s+/g, " ")` on a whole string. -/
def collapseWs (s : String) : String :=
  String.mk (collapseWsAux s.length s.toList)

/-- JS `String.prototype.trim`: strip leading and trailing whitespace. -/
def trimStr (s : String) : String :=
  String.mk
    (((s.toList.dropWhile Char.isWhitespace).reverse.dropWhile
        Char.isWhitespace).reverse)

/-- `cleanText` of src/main_file/scrape_job_details.ts (the identical
helper also appears in src/unnamed/part_000):
`t ? t.replace(/\s+/g, " ").trim() : null`, with the JS `||`-style
collapse of an empty result to `null`. -/
def cleanText (s : String) : Option String :=
  let t := trimStr (collapseWs s)
  if t = "" then none else some t

end Details

namespace Details

/-- `\d+` (at least one digit, greedy): the consumed digits and the rest. -/
def digits1 (cs : List Char) : Option (List Char × List Char) :=
  let d := cs.takeWhile Char.isDigit
  if d.isEmpty then none else some (d, cs.dropWhile Char.isDigit)

/-- `\s*` (greedy): consumed whitespace and the rest. -/
def wsStar (cs : List Char) : List Char × List Char :=
  (cs.takeWhile Char.isWhitespace, cs.dropWhile Char.isWhitespace)

/-- `(?:\.\d+)?`: a dot followed by digits, or nothing. -/
def fracOpt (cs : List Char) : List Char × List Char :=
  match cs with
  | '.' :: rest =>
    match digits1 rest with
    | some (d, r) => ('.' :: d, r)
    | none => ([], cs)
  | _ => ([], cs)

/-- `\$\d+(?:\.\d+)?`: a dollar sign, digits, optional decimal part. -/
def amountCore (cs : List Char) : Option (List Char × List Char) :=
  match cs with
  | '$' :: rest =>
    match digits1 rest with
    | some (d, r1) =>
      let (f, r2) := fracOpt r1
      some ('$' :: (d ++ f), r2)
    | none => none
  | _ => none

/-- `(?:\s*-\s*\$\d+(?:\.\d+)?)?`: an optional range tail; on any failure
the group consumes nothing. -/
def rangeOpt (cs : List Char) : List Char × List Char :=
  let (w1, r1) := wsStar cs
  match r1 with
  | '-' :: r2 =>
    let (w2, r3) := wsStar r2
    match amountCore r3 with
    | some (a, r4) => (w1 ++ '-' :: (w2 ++ a), r4)
    | none => ([], cs)
  | _ => ([], cs)

/-- Case-insensitive literal prefix match (the regex carries the `i`
flag); returns the consumed original characters and the rest. -/
def litCI : List Char → List Char → Option (List Char × List Char)
  | [], cs => some ([], cs)
  | _ :: _, [] => none
  | p :: ps, c :: cs =>
    if c.toLower = p.toLower then
      match litCI ps cs with
      | some (m, r) => some (c :: m, r)
      | none => none
    else none

/-- `(?:\/hr|per hour|per annum|pa)?`: the alternatives in source order,
or nothing. -/
def suffixOpt (cs : List Char) : List Char × List Char :=
  match litCI "/hr".toList cs with
  | some (m, r) => (m, r)
  | none =>
    match litCI "per hour".toList cs with
    | some (m, r) => (m, r)
    | none =>
      match litCI "per annum".toList cs with
      | some (m, r) => (m, r)
      | none =>
        match litCI "pa".toList cs with
        | some (m, r) => (m, r)
        | none => ([], cs)

/-- One attempt of the salary regex
`\$\d+(?:\.\d+)?(?:\s*-\s*\$\d+(?:\.\d+)?)?\s*(?:\/hr|per hour|per annum|pa)?`
at the current position: the matched text and the remainder. -/
def matchAmount (cs : List Char) : Option (List Char × List Char) :=
  match amountCore cs with
  | none => none
  | some (a, r1) =>
    let (rg, r2) := rangeOpt r1
    let (w, r3) := wsStar r2
    let (sf, r4) := suffixOpt r3
    some (a ++ rg ++ w ++ sf, r4)

/-- `text.match(regex)` with the `g` flag: scan left to right, take each
leftmost match, resume after it.  Every match consumes at least two
characters, so fuel equal to the string length suffices. -/
def scanAmountsAux : Nat → List Char → List String
  | 0, _ => []
  | _ + 1, [] => []
  | fuel + 1, c :: rest =>
    match matchAmount (c :: rest) with
    | some (m, r) => String.mk m :: scanAmountsAux fuel r
    | none => scanAmountsAux fuel rest

/-- All matches of the salary regex in `s`, in order. -/
def scanAmounts (s : String) : List String :=
  scanAmountsAux s.length s.toList

/-- JS `text.split(/(?=\$)/g)`: split before every `$` that is not at
position 0 (a zero-width match at the start produces no split). -/
def splitDollarAux (cur : List Char) : List Char → List (List Char)
  | [] => [cur]
  | c :: cs =>
    if c = '$' ∧ cur ≠ [] then cur :: splitDollarAux [c] cs
    else splitDollarAux (cur ++ [c]) cs

/-- `text.split(/(?=\$)/g)` on a string. -/
def splitBeforeDollar (s : String) : List String :=
  (splitDollarAux [] s.toList).map String.mk

/-- `[...new Set(parts)]`: drop duplicates, keeping first occurrences in
order. -/
def dedupFirst (l : List String) : List String :=
  l.foldl (fun acc s => if s ∈ acc then acc else acc ++ [s]) []

/-- `normalizeSalary` of src/main_file/scrape_job_details.ts on a present
string: split before each `$`, trim the parts, deduplicate exact string
matches, join with single spaces.  (The `if (!text) return null` guard is
handled at the call sites of the model.) -/
def normalizeSalary (text : String) : String :=
  String.intercalate " " (dedupFirst ((splitBeforeDollar text).map trimStr))

/-- `extractSalaryFromDescription` of src/main_file/scrape_job_details.ts:
all regex matches joined with spaces and normalized, or `null` when the
description has no match. -/
def extractSalaryFromDescription (text : String) : Option String :=
  match scanAmounts text with
  | [] => none
  | m :: ms => some (normalizeSalary (String.intercalate " " (m :: ms)))

/-- The `listedSalary` field of `getJobDetails`
(src/main_file/scrape_job_details.ts line 212):
`normalizeSalary(cleanText($("h4.salary").text())) ||
extractSalaryFromDescription($(".prose").text())` — the explicit salary
when present (non-empty after cleaning), otherwise the description
fallback.  Note the fallback receives the raw `.prose` text. -/
def listedSalary (explicitText : String) (descriptionText : String) :
    Option String :=
  match cleanText explicitText with
  | some s =>
    let n := normalizeSalary s
    if n = "" then extractSalaryFromDescription descriptionText else some n
  | none => extractSalaryFromDescription descriptionText

/-- Executable substring check used to state what the extracted salary
does and does not contain. -/
def infixCheck (needle hay : List Char) : Bool :=
  (List.range (hay.length + 1)).any fun i =>
    (hay.drop i).take needle.length == needle

end Details

namespace RoleLookup

/-- JS `String.prototype.toLowerCase` (character-wise). -/
def toLowerStr (s : String) : String :=
  String.mk (s.toList.map Char.toLower)

/-- `JOB_LEVEL_MAP` of src/unnamed/part_000 — the same eight-entry table
as `ROLE_LEVELS` in src/main_file/scrape_job_details.ts. -/
def JOB_LEVEL_MAP : Nat → Option String :=
  Details.ROLE_LEVELS

/-- One job card's comparison inside `getRoleLevel`
(src/unnamed/part_000 lines 112-115):
`cleanText($(card).text())?.toLowerCase() === title` where `title` is
already lowercased; a card whose cleaned text is empty (`cleanText`
returns null) never matches. -/
def cardMatch (title : String) (card : String) : Bool :=
  match Details.cleanText card with
  | some t => toLowerStr t == title
  | none => false

/-- The level/page visit order of `getRoleLevel`: levels 1..8 outer,
pages 1..3 inner. -/
def levelBlock (lv : Nat) : List (Nat × Nat) :=
  [(lv, 1), (lv, 2), (lv, 3)]

/-- The eight role levels in visit order. -/
def LEVELS : List Nat := [1, 2, 3, 4, 5, 6, 7, 8]

/-- All 24 (level, page) pairs `getRoleLevel` may fetch, in visit order. -/
def visitOrder : List (Nat × Nat) :=
  LEVELS.flatMap levelBlock

/-- The fetch/scan loop of `getRoleLevel` over a list of (level, page)
pairs: fetch the listing page, return
`JOB_LEVEL_MAP[level] || "Unknown"` at the first matching card, and
`"Not Found"` when the list is exhausted.  Also counts the pages
fetched. -/
def grlGo (fetch : Nat → Nat → List String) (title : String) :
    List (Nat × Nat) → String × Nat
  | [] => ("Not Found", 0)
  | (lv, pg) :: rest =>
    if (fetch lv pg).any (cardMatch title) then
      (Details.jsOr (JOB_LEVEL_MAP lv) "Unknown", 1)
    else
      let r := grlGo fetch title rest
      (r.1, r.2 + 1)

/-- `getRoleLevel` of src/unnamed/part_000: lowercase the target title,
then scan levels 1..8, pages 1..3.  The listing fetch for the fixed city
is the parameter `fetch`.  Returns the label and the number of pages
fetched. -/
def getRoleLevel (fetch : Nat → Nat → List String) (title : String) :
    String × Nat :=
  grlGo fetch (toLowerStr title) visitOrder

end RoleLookup
/-!
## Shared definitions used by the theorems
-/

/-- A batch mixing one empty page (page 1) with non-empty pages. -/
def fetchMix : Nat → List MainScrapeJob.JobLink :=
  fun p => if p = 1 then [] else [⟨"i", "t", "u"⟩]

/-- Insert the same job `n` times into an empty dedup map
(src/scrape_job.ts `uniqueJobs`). -/
def insertNTimes (job : ScrapeJob.JobLink) : Nat → List (String × ScrapeJob.JobLink)
  | 0 => []
  | n + 1 => (ScrapeJob.dedupInsert (insertNTimes job n) job).1

/-!
## Helper lemmas
-/

theorem details_asyncPool_map_ok {E R : Type} (limit : Nat) (rs : List R) :
    Details.asyncPool (E := E) limit (rs.map Except.ok) = Except.ok rs := by
  induction rs with
  | nil => rfl
  | cons r rs ih => simp [Details.asyncPool, ih]

theorem chunkListAux_one {α : Type} (l : List α) :
    ∀ fuel : Nat, l.length ≤ fuel →
      MainScrapeJob.chunkListAux 1 fuel l = l.map fun x => [x] := by
  induction l with
  | nil => intro fuel _; cases fuel <;> rfl
  | cons x xs ih =>
    intro fuel h
    cases fuel with
    | zero => simp at h
    | succ f =>
      have hx : xs.length ≤ f := by simp at h; omega
      simp [MainScrapeJob.chunkListAux, ih f hx]

theorem main_asyncPool_zero {R : Type} (ts : List (MainScrapeJob.JTask R)) :
    MainScrapeJob.asyncPool 0 ts = ts.filterMap MainScrapeJob.JTask.res := by
  unfold MainScrapeJob.asyncPool MainScrapeJob.chunkList
  rw [show max 0 1 = 1 from rfl, chunkListAux_one ts ts.length le_rfl]
  induction ts with
  | nil => rfl
  | cons t ts ih =>
    simp only [List.map_cons, List.flatMap_cons, List.filterMap_cons]
    rw [ih]
    cases h : t.res <;>
      simp [List.insertionSort, List.orderedInsert, List.filterMap, h]

/-!
## C1 — worker pool positional correspondence
-/

/-- C1 counterexample: in `asyncPool` of src/main_file/scrape_job.ts, two
tasks submitted with limit 2 where the first settles later than the second
produce `[1, 0]` — the completion order — so the output at position 0 is
not the result of task 0. -/
theorem c1_counterexample :
    MainScrapeJob.asyncPool 2 [⟨some 0, 2⟩, ⟨some 1, 1⟩] = [1, 0] ∧
      MainScrapeJob.asyncPool 2 [⟨some 0, 2⟩, ⟨some 1, 1⟩] ≠ [0, 1] := by
  decide

/-- C1 amended: the `asyncPool` of src/main_file/scrape_job_details.ts
(`Promise.all` over the submission-ordered promise array) does return, for
every limit ≥ 1 and every sequence of succeeding tasks, exactly one output
per input with the output at position i the result of task i; the
`asyncPool` of src/main_file/scrape_job.ts does not have this property
(see the counterexample). -/
theorem c1_theorem (limit : Nat) (rs : List Nat) (_h : 1 ≤ limit) :
    Details.asyncPool (E := Unit) limit (rs.map Except.ok) = Except.ok rs :=
  details_asyncPool_map_ok limit rs

/-- C1 witness: the amended theorem at limit 1 and tasks `[3, 4]`. -/
theorem c1_witness :
    Details.asyncPool (E := Unit) 1 ([3, 4].map Except.ok) = Except.ok [3, 4] :=
  c1_theorem 1 [3, 4] (by decide)

/-!
## C3 — failure isolation in the worker pool
-/

/-- C3 counterexample: in `asyncPool` of src/main_file/scrape_job.ts a
rejected task contributes nothing (`.catch(() => {})`): with tasks
[reject, fulfil 5] the result is `[5]` of length 1 — there is no explicit
absence at position 0, the sibling's result shifts into it. -/
theorem c3_counterexample :
    MainScrapeJob.asyncPool 2 [(⟨none, 1⟩ : MainScrapeJob.JTask Nat), ⟨some 5, 2⟩] = [5] ∧
      (MainScrapeJob.asyncPool 2
        [(⟨none, 1⟩ : MainScrapeJob.JTask Nat), ⟨some 5, 2⟩]).length ≠ 2 := by
  decide

/-- C3 amended: in the detail-scraping pipeline
(src/main_file/scrape_job_details.ts lines 238-244) each task is wrapped
in `try/catch` returning `null`, so the batch handed to `asyncPool` never
rejects and the pool returns one output per input in input order with
`none` exactly at the positions whose underlying task raised; siblings
keep their positions.  (Without that wrapper a rejection makes
`Promise.all` reject; and in src/main_file/scrape_job.ts's pool a failed
task is dropped from the output, shifting its siblings — see the
counterexample.) -/
theorem c3_theorem (limit : Nat) (outs : List (Except Unit Nat)) :
    Details.asyncPool (E := Unit) limit (outs.map fun o => Except.ok o.toOption) =
      Except.ok (outs.map Except.toOption) := by
  have h := details_asyncPool_map_ok (E := Unit) limit (outs.map Except.toOption)
  simpa [List.map_map] using h

/-!
## C8 — limit = 0 and limit above the task count
-/

/-- C8 counterexample: neither pool validates `limit = 0`; both run their
tasks and return results instead of failing fast with a configuration
error. -/
theorem c8_counterexample :
    MainScrapeJob.asyncPool 0 [(⟨some 7, 0⟩ : MainScrapeJob.JTask Nat)] = [7] ∧
      Details.asyncPool (E := Unit) 0 [Except.ok 7] = Except.ok [7] :=
  ⟨by decide, rfl⟩

/-- C8 amended: `limit = 0` raises no configuration error — the pools
still execute every task (the in-flight gate merely serialises them) and
return their outputs; a limit greater than the task count leaves the gate
untriggered (unlimited concurrency) and still yields one output per
input. -/
theorem c8_theorem (rs : List Nat) :
    Details.asyncPool (E := Unit) 0 (rs.map Except.ok) = Except.ok rs ∧
      (∀ limit, rs.length < limit →
        Details.asyncPool (E := Unit) limit (rs.map Except.ok) = Except.ok rs) ∧
      ∀ ts : List (MainScrapeJob.JTask Nat),
        MainScrapeJob.asyncPool 0 ts = ts.filterMap MainScrapeJob.JTask.res :=
  ⟨details_asyncPool_map_ok 0 rs,
   fun limit _ => details_asyncPool_map_ok limit rs,
   fun ts => main_asyncPool_zero ts⟩

/-- C8 witness: the amended theorem at tasks `[1, 2]` and limit 5. -/
theorem c8_witness :
    Details.asyncPool (E := Unit) 5 ([1, 2].map Except.ok) = Except.ok [1, 2] :=
  (c8_theorem [1, 2]).2.1 5 (by decide)

/-!
## C2 — batched pagination termination in src/main_file/scrape_job.ts
-/

theorem scrapeBatches_succ (fetch : Nat → List MainScrapeJob.JobLink)
    (page fuel : Nat) :
    MainScrapeJob.scrapeBatches fetch page (fuel + 1) =
      if ((List.range 5).map fun i => fetch (page + i)).any List.isEmpty then
        ((((List.range 5).map fun i => fetch (page + i)).flatten), 1)
      else
        ((((List.range 5).map fun i => fetch (page + i)).flatten) ++
            (MainScrapeJob.scrapeBatches fetch (page + 5) fuel).1,
          (MainScrapeJob.scrapeBatches fetch (page + 5) fuel).2 + 1) := rfl

theorem scrapeBatches_pos (fetch : Nat → List MainScrapeJob.JobLink)
    (page fuel : Nat) :
    1 ≤ (MainScrapeJob.scrapeBatches fetch page (fuel + 1)).2 := by
  rw [scrapeBatches_succ]
  split <;> simp

/-- C2 counterexample: a batch whose page 1 is empty while pages 2..5 are
non-empty stops the loop after one batch (`hasMore` was set to false by
the single empty page), instead of advancing as the claim requires. -/
theorem c2_counterexample :
    (MainScrapeJob.scrapeBatches fetchMix 1 10).2 = 1 ∧ fetchMix 2 ≠ [] := by
  decide

/-- C2 amended: the termination check is evaluated only after the whole
batch of 5 pages settles — the batch's results (including the non-empty
pages alongside an empty one) are all collected — but the loop stops as
soon as AT LEAST ONE page of the batch is empty, not only when every page
is; it advances to the next batch exactly when every page of the current
batch is non-empty. -/
theorem c2_theorem (fetch : Nat → List MainScrapeJob.JobLink)
    (page fuel : Nat) :
    ((MainScrapeJob.scrapeBatches fetch page (fuel + 2)).2 = 1 ↔
        ∃ i < 5, fetch (page + i) = []) ∧
      ∃ rest, (MainScrapeJob.scrapeBatches fetch page (fuel + 1)).1 =
        (((List.range 5).map fun i => fetch (page + i)).flatten) ++ rest := by
  have hany : (((List.range 5).map fun i => fetch (page + i)).any List.isEmpty = true) ↔
      ∃ i < 5, fetch (page + i) = [] := by
    simp only [List.any_eq_true, List.mem_map, List.mem_range]
    constructor
    · rintro ⟨_, ⟨i, hi, rfl⟩, he⟩
      exact ⟨i, hi, List.isEmpty_iff.mp he⟩
    · rintro ⟨i, hi, he⟩
      exact ⟨fetch (page + i), ⟨i, hi, rfl⟩, List.isEmpty_iff.mpr he⟩
  constructor
  · rw [scrapeBatches_succ]
    by_cases h : ((List.range 5).map fun i => fetch (page + i)).any List.isEmpty
    · rw [if_pos h]
      exact ⟨fun _ => hany.mp h, fun _ => rfl⟩
    · rw [if_neg h]
      constructor
      · intro hcount
        have hpos := scrapeBatches_pos fetch (page + 5) fuel
        simp at hcount
        omega
      · intro hex
        exact absurd (hany.mpr hex) h
  · rw [scrapeBatches_succ]
    by_cases h : ((List.range 5).map fun i => fetch (page + i)).any List.isEmpty
    · exact ⟨[], by simp [h]⟩
    · exact ⟨(MainScrapeJob.scrapeBatches fetch (page + 5) fuel).1, by simp [h]⟩

/-!
## C4 — no-new-items termination in src/scrape_job.ts
-/

theorem scrapeNoNewLoop_succ (fetch : Nat → List ScrapeJob.JobLink)
    (page : Nat) (store : List (String × ScrapeJob.JobLink)) (fuel : Nat) :
    ScrapeJob.scrapeNoNewLoop fetch page store (fuel + 1) =
      if store.length < (ScrapeJob.insertAll store (fetch page)).length then
        ((ScrapeJob.scrapeNoNewLoop fetch (page + 1)
            (ScrapeJob.insertAll store (fetch page)) fuel).1,
          (ScrapeJob.scrapeNoNewLoop fetch (page + 1)
            (ScrapeJob.insertAll store (fetch page)) fuel).2 + 1)
      else
        (ScrapeJob.insertAll store (fetch page), 1) := rfl

theorem scrapeNoNewLoop_pos (fetch : Nat → List ScrapeJob.JobLink)
    (page : Nat) (store : List (String × ScrapeJob.JobLink)) (fuel : Nat) :
    1 ≤ (ScrapeJob.scrapeNoNewLoop fetch page store (fuel + 1)).2 := by
  rw [scrapeNoNewLoop_succ]
  split <;> simp

/-- C4 counterexample: on the spec's fake fetcher
([A,B], [B,C], [C,C], [], ...) the loop stops after the THIRD fetch call
(page [C,C] inserts nothing new), not after the fourth as claimed. -/
theorem c4_counterexample :
    (ScrapeJob.scrapeNoNewLoop ScrapeJob.fakeFetcher 1 [] 10).2 = 3 ∧
      (ScrapeJob.scrapeNoNewLoop ScrapeJob.fakeFetcher 1 [] 10).2 ≠ 4 := by
  decide

/-- C4 amended: the loop stops exactly when a fetched page's items, once
inserted, leave the dedup map's size unchanged (zero newly-inserted
entries); on the fake fetcher [A,B], [B,C], [C,C], [] it therefore stops
after the third call, with the store containing exactly {A, B, C} in
insertion order. -/
theorem c4_theorem :
    (∀ (fetch : Nat → List ScrapeJob.JobLink) (page : Nat)
        (store : List (String × ScrapeJob.JobLink)) (fuel : Nat),
        ((ScrapeJob.scrapeNoNewLoop fetch page store (fuel + 2)).2 = 1 ↔
          ¬ store.length < (ScrapeJob.insertAll store (fetch page)).length)) ∧
      (ScrapeJob.scrapeNoNewLoop ScrapeJob.fakeFetcher 1 [] 10).2 = 3 ∧
      ScrapeJob.mapValues (ScrapeJob.scrapeNoNewLoop ScrapeJob.fakeFetcher 1 [] 10).1 =
        [ScrapeJob.jobA, ScrapeJob.jobB, ScrapeJob.jobC] := by
  refine ⟨?_, by decide, by decide⟩
  intro fetch page store fuel
  rw [scrapeNoNewLoop_succ]
  by_cases h : store.length < (ScrapeJob.insertAll store (fetch page)).length
  · rw [if_pos h]
    have hpos := scrapeNoNewLoop_pos fetch (page + 1)
      (ScrapeJob.insertAll store (fetch page)) fuel
    constructor
    · intro hc; simp at hc; omega
    · intro hc; exact absurd h hc
  · rw [if_neg h]
    exact ⟨fun _ => h, fun _ => rfl⟩

/-!
## C5 — dedup store insert semantics
-/

theorem mapGet_mapSet_self {α : Type} (store : List (String × α))
    (k : String) (v : α) :
    ScrapeJob.mapGet (ScrapeJob.mapSet store k v) k = some v := by
  induction store with
  | nil => simp [ScrapeJob.mapSet, ScrapeJob.mapGet]
  | cons p rest ih =>
    obtain ⟨k', v'⟩ := p
    by_cases h : k' = k
    · simp [ScrapeJob.mapSet, ScrapeJob.mapGet, h]
    · simp [ScrapeJob.mapSet, ScrapeJob.mapGet, h, ih]

theorem mapSet_keys {α : Type} (store : List (String × α)) (k : String) (v : α) :
    (ScrapeJob.mapSet store k v).map Prod.fst =
      if k ∈ store.map Prod.fst then store.map Prod.fst
      else store.map Prod.fst ++ [k] := by
  induction store with
  | nil => simp [ScrapeJob.mapSet]
  | cons p rest ih =>
    obtain ⟨k', v'⟩ := p
    by_cases h : k' = k
    · subst h; simp [ScrapeJob.mapSet]
    · by_cases hm : k ∈ rest.map Prod.fst
      · simp [ScrapeJob.mapSet, h, ih, hm, Ne.symm h]
      · simp [ScrapeJob.mapSet, h, ih, hm, Ne.symm h]

theorem mapSet_keys_nodup {α : Type} (store : List (String × α))
    (k : String) (v : α) (h : (store.map Prod.fst).Nodup) :
    ((ScrapeJob.mapSet store k v).map Prod.fst).Nodup := by
  rw [mapSet_keys]
  split
  · exact h
  · next hk =>
    refine List.Nodup.append h (List.nodup_singleton k) ?_
    intro a ha hak
    simp at hak
    exact hk (hak ▸ ha)

theorem mapSet_keys_toFinset {α : Type} (store : List (String × α))
    (k : String) (v : α) :
    ((ScrapeJob.mapSet store k v).map Prod.fst).toFinset =
      insert k (store.map Prod.fst).toFinset := by
  rw [mapSet_keys]
  split
  · next hk =>
    rw [Finset.insert_eq_self.mpr (List.mem_toFinset.mpr hk)]
  · next hk =>
    ext a
    simp [or_comm]

theorem insertAll_keys_nodup (store : List (String × ScrapeJob.JobLink))
    (js : List ScrapeJob.JobLink) (h : (store.map Prod.fst).Nodup) :
    ((ScrapeJob.insertAll store js).map Prod.fst).Nodup := by
  induction js generalizing store with
  | nil => exact h
  | cons j rest ih =>
    exact ih (ScrapeJob.mapSet store j.url j) (mapSet_keys_nodup store j.url j h)

theorem insertAll_keys_toFinset (store : List (String × ScrapeJob.JobLink))
    (js : List ScrapeJob.JobLink) :
    ((ScrapeJob.insertAll store js).map Prod.fst).toFinset =
      (store.map Prod.fst).toFinset ∪ (js.map ScrapeJob.JobLink.url).toFinset := by
  induction js generalizing store with
  | nil => simp [ScrapeJob.insertAll]
  | cons j rest ih =>
    show ((ScrapeJob.insertAll (ScrapeJob.mapSet store j.url j) rest).map Prod.fst).toFinset = _
    rw [ih, mapSet_keys_toFinset]
    ext a
    simp [or_comm, or_assoc, or_left_comm]

theorem insertAll_values_length (js : List ScrapeJob.JobLink) :
    (ScrapeJob.mapValues (ScrapeJob.insertAll [] js)).length =
      (js.map ScrapeJob.JobLink.url).dedup.length := by
  have hnd : ((ScrapeJob.insertAll [] js).map Prod.fst).Nodup :=
    insertAll_keys_nodup [] js (by simp)
  have hfs := insertAll_keys_toFinset [] js
  have h1 := List.toFinset_card_of_nodup hnd
  have h2 : (ScrapeJob.mapValues (ScrapeJob.insertAll [] js)).length =
      ((ScrapeJob.insertAll [] js).map Prod.fst).length := by
    simp [ScrapeJob.mapValues]
  rw [h2, ← h1, hfs]
  simp [List.card_toFinset]

theorem insertNTimes_eq (job : ScrapeJob.JobLink) :
    ∀ n, 1 ≤ n → insertNTimes job n = [(job.url, job)] := by
  intro n hn
  induction n with
  | zero => omega
  | succ m ih =>
    cases Nat.eq_zero_or_pos m with
    | inl h0 =>
      subst h0
      simp [insertNTimes, ScrapeJob.dedupInsert, ScrapeJob.mapSet]
    | inr hpos =>
      show (ScrapeJob.dedupInsert (insertNTimes job m) job).1 = _
      rw [ih hpos]
      simp [ScrapeJob.dedupInsert, ScrapeJob.mapSet]

/-- C5 counterexample: re-inserting the url/id "u" with a different title
overwrites the previously stored record (JS `Map.set` is last-write-wins),
so the stored record does not stay unchanged. -/
theorem c5_counterexample :
    ScrapeJob.mapGet
        (ScrapeJob.dedupInsert (ScrapeJob.dedupInsert [] ⟨"t1", "u"⟩).1 ⟨"t2", "u"⟩).1 "u" =
      some ⟨"t2", "u"⟩ ∧
      ScrapeJob.mapGet
          (ScrapeJob.dedupInsert (ScrapeJob.dedupInsert [] ⟨"t1", "u"⟩).1 ⟨"t2", "u"⟩).1 "u" ≠
        some ⟨"t1", "u"⟩ := by
  decide

/-- C5 amended: inserting the same ItemReference N ≥ 1 times leaves the
store at size 1 for that id with that record stored; re-inserting an
existing id reports `wasNew = false` but OVERWRITES the stored record with
the newly inserted one (last-write-wins) rather than leaving it
unchanged; `Values()` has length equal to the number of distinct ids
inserted, in insertion order. -/
theorem c5_theorem :
    (∀ (job : ScrapeJob.JobLink) (n : Nat), 1 ≤ n →
        insertNTimes job n = [(job.url, job)]) ∧
      (∀ (store : List (String × ScrapeJob.JobLink)) (job job2 : ScrapeJob.JobLink),
        job2.url = job.url →
        (ScrapeJob.dedupInsert (ScrapeJob.dedupInsert store job).1 job2).2 = false) ∧
      (∀ (store : List (String × ScrapeJob.JobLink)) (k : String) (v : ScrapeJob.JobLink),
        ScrapeJob.mapGet (ScrapeJob.mapSet store k v) k = some v) ∧
      ∀ js : List ScrapeJob.JobLink,
        (ScrapeJob.mapValues (ScrapeJob.insertAll [] js)).length =
          (js.map ScrapeJob.JobLink.url).dedup.length := by
  refine ⟨insertNTimes_eq, ?_, mapGet_mapSet_self, insertAll_values_length⟩
  intro store job job2 hurl
  simp only [ScrapeJob.dedupInsert, hurl, mapGet_mapSet_self, Option.isNone_some]

/-- C5 witness: three inserts of the same job leave a single entry. -/
theorem c5_witness :
    insertNTimes ⟨"t", "u"⟩ 3 = [("u", (⟨"t", "u"⟩ : ScrapeJob.JobLink))] :=
  c5_theorem.1 ⟨"t", "u"⟩ 3 (by decide)

/-!
## C6 — salary fallback extraction
-/

/-- C6 counterexample: on the spec's description the number pattern
`\$\d+` stops at the commas, so the fallback is `"$80 $95"`, which
contains neither amount `"$80,000"` nor `"$95,000"`. -/
theorem c6_counterexample :
    Details.extractSalaryFromDescription "Salary: $80,000 - $95,000 per annum" =
        some "$80 $95" ∧
      Details.infixCheck "$80,000".toList "$80 $95".toList = false ∧
      Details.infixCheck "$95,000".toList "$80 $95".toList = false := by
  decide

/-- C6 amended: with an empty explicit salary field the fallback scan runs
on the description and joins ALL regex matches (not only the first),
deduplicating exact duplicate tokens; on the given description the
comma-free number pattern truncates the two amounts, yielding exactly
`"$80 $95"` — the truncated leading token of each amount, no repeated
identical substrings.  The dedup of exact duplicates is shown on
`"$50 $50"`. -/
theorem c6_theorem :
    Details.listedSalary "" "Salary: $80,000 - $95,000 per annum" = some "$80 $95" ∧
      Details.infixCheck "$80".toList "$80 $95".toList = true ∧
      Details.infixCheck "$95".toList "$80 $95".toList = true ∧
      Details.extractSalaryFromDescription "pay is $50 $50" = some "$50" := by
  decide

/-!
## C7 — FetchError during filter-map pagination
-/

theorem buildFilterPages_error (fetch : Nat → Nat → Except Unit (List String))
    (fid : Nat) (label : String) (map : List (String × String))
    (page fuel : Nat) (e : Unit) (h : fetch fid page = Except.error e) :
    Details.buildFilterPages fetch fid label map page (fuel + 1) =
      Except.error e := by
  simp [Details.buildFilterPages, h]

/-- C7 counterexample: a transport error while paginating filter value 1
makes the whole `buildFilterMap` call return the error — filter value 2,
whose pages are fine and would contribute `("j", "Entry Level")`, is never
processed.  (There is no `try`/`catch` in `buildFilterMap`; the error is
not treated as "no more pages".) -/
theorem c7_counterexample :
    Details.buildFilterMap
        (fun fid pg => if fid = 1 then Except.error () else
          if pg = 1 then Except.ok ["j"] else Except.ok [])
        [1, 2] Details.ROLE_LEVELS [] 10 = Except.error () ∧
      Details.buildFilterMap
        (fun fid pg => if fid = 1 then Except.error () else
          if pg = 1 then Except.ok ["j"] else Except.ok [])
        [2] Details.ROLE_LEVELS [] 10 = Except.ok [("j", "Entry Level")] :=
  ⟨rfl, rfl⟩

/-- C7 amended: a FetchError raised while paginating one filter value is
not caught anywhere in `buildFilterMap`: it aborts the pagination loop,
the remaining filter values of the same dimension, and the whole map
construction (the enclosing run's `try` catches it only at top level), so
sibling queries do not proceed. -/
theorem c7_theorem (fetch : Nat → Nat → Except Unit (List String))
    (id : Nat) (rest : List Nat) (sourceMap : Nat → Option String)
    (map : List (String × String)) (fuel : Nat) (e : Unit)
    (h : fetch id 1 = Except.error e) :
    Details.buildFilterMap fetch (id :: rest) sourceMap map (fuel + 1) =
      Except.error e := by
  simp [Details.buildFilterMap,
    buildFilterPages_error fetch id (Details.jsOr (sourceMap id) "Not Found")
      map 1 fuel e h]

/-- C7 witness: a fetcher failing on every page aborts a one-value map
build. -/
theorem c7_witness :
    Details.buildFilterMap (fun _ _ => Except.error ()) [1]
      Details.ROLE_LEVELS [] 4 = Except.error () :=
  c7_theorem (fun _ _ => Except.error ()) 1 [] Details.ROLE_LEVELS [] 3 () rfl

/-!
## C9 — classification label default
-/

theorem jsOr_ne_empty (v : Option String) (dflt : String) (h : dflt ≠ "") :
    Details.jsOr v dflt ≠ "" := by
  cases v with
  | none => exact h
  | some s =>
    by_cases hs : s = "" <;> simp [Details.jsOr, hs, h]

theorem mapSet_values_pres {α : Type} (P : α → Prop)
    (store : List (String × α)) (k : String) (v : α)
    (hs : ∀ kv ∈ store, P kv.2) (hv : P v) :
    ∀ kv ∈ ScrapeJob.mapSet store k v, P kv.2 := by
  induction store with
  | nil =>
    intro kv hkv
    simp [ScrapeJob.mapSet] at hkv
    rw [hkv]
    exact hv
  | cons p rest ih =>
    obtain ⟨k', v'⟩ := p
    by_cases h : k' = k
    · intro kv hkv
      simp only [ScrapeJob.mapSet, h, if_true] at hkv
      rcases List.mem_cons.mp hkv with rfl | hm
      · exact hv
      · exact hs kv (List.mem_cons_of_mem _ hm)
    · intro kv hkv
      simp only [ScrapeJob.mapSet, h, if_false] at hkv
      rcases List.mem_cons.mp hkv with rfl | hm
      · exact hs (k', v') (List.mem_cons_self _ _)
      · exact ih (fun x hx => hs x (List.mem_cons_of_mem _ hx)) kv hm

theorem foldl_mapSet_pres (label : String) (links : List String) :
    ∀ m : List (String × String), (∀ kv ∈ m, kv.2 ≠ "") → label ≠ "" →
      ∀ kv ∈ links.foldl (fun m jobId => ScrapeJob.mapSet m jobId label) m,
        kv.2 ≠ "" := by
  induction links with
  | nil => intro m hm _ kv hkv; exact hm kv hkv
  | cons l rest ih =>
    intro m hm hl
    exact ih _ (mapSet_values_pres (· ≠ "") m l label hm hl) hl

theorem buildFilterPages_values (fetch : Nat → Nat → Except Unit (List String))
    (fid : Nat) (label : String) :
    ∀ (fuel : Nat) (map : List (String × String)) (page : Nat)
      (m' : List (String × String)),
      (∀ kv ∈ map, kv.2 ≠ "") → label ≠ "" →
      Details.buildFilterPages fetch fid label map page fuel = Except.ok m' →
      ∀ kv ∈ m', kv.2 ≠ "" := by
  intro fuel
  induction fuel with
  | zero =>
    intro map page m' hm _ heq
    simp only [Details.buildFilterPages, Except.ok.injEq] at heq
    exact heq ▸ hm
  | succ f ih =>
    intro map page m' hm hl heq
    rw [show Details.buildFilterPages fetch fid label map page (f + 1) =
        (match fetch fid page with
          | .error e => .error e
          | .ok [] => .ok map
          | .ok links =>
            Details.buildFilterPages fetch fid label
              (links.foldl (fun m jobId => ScrapeJob.mapSet m jobId label) map)
              (page + 1) f) from rfl] at heq
    cases hf : fetch fid page with
    | error e => rw [hf] at heq; cases heq
    | ok links =>
      rw [hf] at heq
      cases links with
      | nil =>
        simp only [Except.ok.injEq] at heq
        exact heq ▸ hm
      | cons l ls =>
        exact ih _ (page + 1) m'
          (foldl_mapSet_pres label (l :: ls) map hm hl) hl heq

theorem buildFilterMap_values (fetch : Nat → Nat → Except Unit (List String))
    (sourceMap : Nat → Option String) (fuel : Nat) :
    ∀ (ids : List Nat) (map m' : List (String × String)),
      (∀ kv ∈ map, kv.2 ≠ "") →
      Details.buildFilterMap fetch ids sourceMap map fuel = Except.ok m' →
      ∀ kv ∈ m', kv.2 ≠ "" := by
  intro ids
  induction ids with
  | nil =>
    intro map m' hm heq
    simp only [Details.buildFilterMap, Except.ok.injEq] at heq
    exact heq ▸ hm
  | cons id rest ih =>
    intro map m' hm heq
    rw [show Details.buildFilterMap fetch (id :: rest) sourceMap map fuel =
        (match Details.buildFilterPages fetch id
            (Details.jsOr (sourceMap id) "Not Found") map 1 fuel with
          | .error e => .error e
          | .ok map2 => Details.buildFilterMap fetch rest sourceMap map2 fuel)
        from rfl] at heq
    cases hp : Details.buildFilterPages fetch id
        (Details.jsOr (sourceMap id) "Not Found") map 1 fuel with
    | error e => rw [hp] at heq; cases heq
    | ok map2 =>
      rw [hp] at heq
      have hval : ∀ kv ∈ map2, kv.2 ≠ "" :=
        buildFilterPages_values fetch id _ fuel map 1 map2 hm
          (jsOr_ne_empty (sourceMap id) "Not Found" (by decide)) hp
      exact ih map2 m' hval heq

/-- C9 as stated: a job id absent from a dimension's map resolves to the
literal label `"Not Found"` (the field is a total String, never
null/absent); an id present with its mapped label resolves to that label
— every label stored by `buildFilterMap` is non-empty, so the JS `||`
never masks a present entry. -/
theorem c9_theorem :
    (∀ (map : List (String × String)) (jobId : String),
        ScrapeJob.mapGet map jobId = none →
        Details.classificationField map jobId = "Not Found") ∧
      (∀ (map : List (String × String)) (jobId v : String),
        ScrapeJob.mapGet map jobId = some v → v ≠ "" →
        Details.classificationField map jobId = v) ∧
      ∀ (fetch : Nat → Nat → Except Unit (List String)) (ids : List Nat)
        (sourceMap : Nat → Option String) (fuel : Nat)
        (m' : List (String × String)),
        Details.buildFilterMap fetch ids sourceMap [] fuel = Except.ok m' →
        ∀ kv ∈ m', kv.2 ≠ "" := by
  refine ⟨?_, ?_, ?_⟩
  · intro map jobId h
    simp [Details.classificationField, h, Details.jsOr]
  · intro map jobId v h hv
    simp [Details.classificationField, h, Details.jsOr, hv]
  · intro fetch ids sourceMap fuel m' heq
    exact buildFilterMap_values fetch sourceMap fuel ids [] m' (by simp) heq

/-- C9 witness: an absent id yields "Not Found", a present id yields its
label. -/
theorem c9_witness :
    Details.classificationField [("x", "Senior")] "y" = "Not Found" ∧
      Details.classificationField [("x", "Senior")] "x" = "Senior" :=
  ⟨c9_theorem.1 [("x", "Senior")] "y" (by decide),
    c9_theorem.2.1 [("x", "Senior")] "x" "Senior" (by decide) (by decide)⟩

/-!
## C10 — role-level lookup bound and first-match semantics
-/

theorem grlGo_count_le (fetch : Nat → Nat → List String) (title : String) :
    ∀ l : List (Nat × Nat), (RoleLookup.grlGo fetch title l).2 ≤ l.length := by
  intro l
  induction l with
  | nil => simp [RoleLookup.grlGo]
  | cons e rest ih =>
    obtain ⟨lv, pg⟩ := e
    simp only [RoleLookup.grlGo]
    split
    · simp
    · simp only [List.length_cons]; omega

theorem grlGo_all_miss (fetch : Nat → Nat → List String) (title : String) :
    ∀ l : List (Nat × Nat),
      (∀ e ∈ l, (fetch e.1 e.2).any (RoleLookup.cardMatch title) = false) →
      RoleLookup.grlGo fetch title l = ("Not Found", l.length) := by
  intro l
  induction l with
  | nil => intro _; rfl
  | cons e rest ih =>
    intro h
    obtain ⟨lv, pg⟩ := e
    have he := h (lv, pg) (List.mem_cons_self _ _)
    simp only [RoleLookup.grlGo, he, Bool.false_eq_true, if_false]
    rw [ih fun x hx => h x (List.mem_cons_of_mem _ hx)]
    simp

theorem grlGo_skip_misses (fetch : Nat → Nat → List String) (title : String)
    (l₁ l₂ : List (Nat × Nat))
    (h : ∀ e ∈ l₁, (fetch e.1 e.2).any (RoleLookup.cardMatch title) = false) :
    RoleLookup.grlGo fetch title (l₁ ++ l₂) =
      ((RoleLookup.grlGo fetch title l₂).1,
        l₁.length + (RoleLookup.grlGo fetch title l₂).2) := by
  induction l₁ with
  | nil => simp
  | cons e rest ih =>
    obtain ⟨lv, pg⟩ := e
    have he := h (lv, pg) (List.mem_cons_self _ _)
    simp only [List.cons_append, RoleLookup.grlGo, he, Bool.false_eq_true,
      if_false]
    simp only [List.append_eq]
    rw [ih fun x hx => h x (List.mem_cons_of_mem _ hx)]
    simp [Prod.ext_iff]
    omega

theorem grlGo_block_hit (fetch : Nat → Nat → List String) (title : String)
    (lv : Nat) (rest : List (Nat × Nat))
    (h : ∃ pg, 1 ≤ pg ∧ pg ≤ 3 ∧
      (fetch lv pg).any (RoleLookup.cardMatch title) = true) :
    (RoleLookup.grlGo fetch title (RoleLookup.levelBlock lv ++ rest)).1 =
      Details.jsOr (RoleLookup.JOB_LEVEL_MAP lv) "Unknown" := by
  obtain ⟨pg, h1, h2, h3⟩ := h
  show (RoleLookup.grlGo fetch title
    ((lv, 1) :: (lv, 2) :: (lv, 3) :: rest)).1 = _
  by_cases hb1 : (fetch lv 1).any (RoleLookup.cardMatch title) = true
  · simp [RoleLookup.grlGo, hb1]
  · by_cases hb2 : (fetch lv 2).any (RoleLookup.cardMatch title) = true
    · simp [RoleLookup.grlGo, hb1, hb2]
    · by_cases hb3 : (fetch lv 3).any (RoleLookup.cardMatch title) = true
      · simp [RoleLookup.grlGo, hb1, hb2, hb3]
      · exfalso
        interval_cases pg
        · exact hb1 h3
        · exact hb2 h3
        · exact hb3 h3

theorem grlGo_levels (fetch : Nat → Nat → List String) (title : String)
    (l₁ : List Nat) (lv : Nat) (l₂ : List Nat)
    (hmiss : ∀ lv2 ∈ l₁, ∀ pg, 1 ≤ pg → pg ≤ 3 →
      (fetch lv2 pg).any (RoleLookup.cardMatch title) = false)
    (hhit : ∃ pg, 1 ≤ pg ∧ pg ≤ 3 ∧
      (fetch lv pg).any (RoleLookup.cardMatch title) = true) :
    (RoleLookup.grlGo fetch title
        ((l₁ ++ lv :: l₂).flatMap RoleLookup.levelBlock)).1 =
      Details.jsOr (RoleLookup.JOB_LEVEL_MAP lv) "Unknown" := by
  have hsplit : (l₁ ++ lv :: l₂).flatMap RoleLookup.levelBlock =
      (l₁.flatMap RoleLookup.levelBlock) ++
        (RoleLookup.levelBlock lv ++ l₂.flatMap RoleLookup.levelBlock) := by
    simp [List.flatMap_append]
  rw [hsplit]
  have h₁ : ∀ e ∈ l₁.flatMap RoleLookup.levelBlock,
      (fetch e.1 e.2).any (RoleLookup.cardMatch title) = false := by
    intro e he
    simp only [List.mem_flatMap, RoleLookup.levelBlock, List.mem_cons,
      List.mem_singleton] at he
    obtain ⟨lv2, hlv2, hc⟩ := he
    rcases hc with rfl | rfl | rfl | hfalse
    · exact hmiss lv2 hlv2 1 (by omega) (by omega)
    · exact hmiss lv2 hlv2 2 (by omega) (by omega)
    · exact hmiss lv2 hlv2 3 (by omega) (by omega)
    · cases hfalse
  rw [grlGo_skip_misses fetch title _ _ h₁]
  exact grlGo_block_hit fetch title lv _ hhit

theorem visitOrder_bounds :
    ∀ e ∈ RoleLookup.visitOrder, 1 ≤ e.1 ∧ e.1 ≤ 8 ∧ 1 ≤ e.2 ∧ e.2 ≤ 3 := by
  decide

/-- C10: for every fetcher and title, `getRoleLevel` fetches at most 24
listing pages (8 levels × 3 pages); if no page among levels 1..8, pages
1..3 contains a matching card — in particular if the item is listed only
beyond page 3 of every level — the result is the literal "Not Found"; and
if every level below `lv` has no match on pages 1..3 while `lv` has one,
the result is `lv`'s mapped label. -/
theorem c10_theorem (fetch : Nat → Nat → List String) (title : String) :
    (RoleLookup.getRoleLevel fetch title).2 ≤ 24 ∧
      ((∀ lv pg, 1 ≤ lv → lv ≤ 8 → 1 ≤ pg → pg ≤ 3 →
          (fetch lv pg).any
            (RoleLookup.cardMatch (RoleLookup.toLowerStr title)) = false) →
        (RoleLookup.getRoleLevel fetch title).1 = "Not Found") ∧
      ∀ lv lab, 1 ≤ lv → lv ≤ 8 →
        (∀ lv2 pg, 1 ≤ lv2 → lv2 < lv → 1 ≤ pg → pg ≤ 3 →
          (fetch lv2 pg).any
            (RoleLookup.cardMatch (RoleLookup.toLowerStr title)) = false) →
        (∃ pg, 1 ≤ pg ∧ pg ≤ 3 ∧
          (fetch lv pg).any
            (RoleLookup.cardMatch (RoleLookup.toLowerStr title)) = true) →
        RoleLookup.JOB_LEVEL_MAP lv = some lab →
        (RoleLookup.getRoleLevel fetch title).1 = lab := by
  refine ⟨?_, ?_, ?_⟩
  · have hc := grlGo_count_le fetch (RoleLookup.toLowerStr title)
      RoleLookup.visitOrder
    have hl : RoleLookup.visitOrder.length = 24 := rfl
    rw [hl] at hc
    exact hc
  · intro h
    have hall : ∀ e ∈ RoleLookup.visitOrder,
        (fetch e.1 e.2).any
          (RoleLookup.cardMatch (RoleLookup.toLowerStr title)) = false := by
      intro e he
      obtain ⟨h1, h2, h3, h4⟩ := visitOrder_bounds e he
      exact h e.1 e.2 h1 h2 h3 h4
    show (RoleLookup.grlGo fetch (RoleLookup.toLowerStr title)
      RoleLookup.visitOrder).1 = "Not Found"
    rw [grlGo_all_miss fetch (RoleLookup.toLowerStr title)
      RoleLookup.visitOrder hall]
  · intro lv lab h1 h8 hm hhit hlab
    have hfin : ∀ (l₁ : List Nat) (l₂ : List Nat),
        l₁ ++ lv :: l₂ = RoleLookup.LEVELS →
        (∀ lv2 ∈ l₁, lv2 < lv) →
        (RoleLookup.getRoleLevel fetch title).1 =
          Details.jsOr (RoleLookup.JOB_LEVEL_MAP lv) "Unknown" := by
      intro l₁ l₂ hsplit hlt
      have hmiss : ∀ lv2 ∈ l₁, ∀ pg, 1 ≤ pg → pg ≤ 3 →
          (fetch lv2 pg).any
            (RoleLookup.cardMatch (RoleLookup.toLowerStr title)) = false := by
        intro lv2 hlv2 pg hp1 hp3
        have hb : 1 ≤ lv2 := by
          have : lv2 ∈ RoleLookup.LEVELS := by
            rw [← hsplit]; exact List.mem_append_left _ hlv2
          simp [RoleLookup.LEVELS] at this
          omega
        exact hm lv2 pg hb (hlt lv2 hlv2) hp1 hp3
      have h := grlGo_levels fetch (RoleLookup.toLowerStr title) l₁ lv l₂
        hmiss hhit
      rw [hsplit] at h
      exact h
    have hres : (RoleLookup.getRoleLevel fetch title).1 =
        Details.jsOr (RoleLookup.JOB_LEVEL_MAP lv) "Unknown" := by
      interval_cases lv
      · exact hfin [] [2, 3, 4, 5, 6, 7, 8] rfl (by simp)
      · exact hfin [1] [3, 4, 5, 6, 7, 8] rfl (by simp)
      · exact hfin [1, 2] [4, 5, 6, 7, 8] rfl
          (by intro x hx; simp at hx; omega)
      · exact hfin [1, 2, 3] [5, 6, 7, 8] rfl
          (by intro x hx; simp at hx; omega)
      · exact hfin [1, 2, 3, 4] [6, 7, 8] rfl
          (by intro x hx; simp at hx; omega)
      · exact hfin [1, 2, 3, 4, 5] [7, 8] rfl
          (by intro x hx; simp at hx; omega)
      · exact hfin [1, 2, 3, 4, 5, 6] [8] rfl
          (by intro x hx; simp at hx; omega)
      · exact hfin [1, 2, 3, 4, 5, 6, 7] [] rfl
          (by intro x hx; simp at hx; omega)
    rw [hres, hlab]
    have hne : lab ≠ "" := by
      have h8' : lv ≤ 8 := h8
      interval_cases lv <;>
        simp only [RoleLookup.JOB_LEVEL_MAP, Details.ROLE_LEVELS,
          Option.some.injEq] at hlab <;>
        simp [← hlab]
    simp [Details.jsOr, hne]

/-- C10 witness: a fetcher listing the title (with different spacing and
case) on level 2, page 1 only, classifies it "Entry Level". -/
theorem c10_witness :
    (RoleLookup.getRoleLevel
        (fun lv pg => if lv = 2 ∧ pg = 1 then ["Some  Job"] else [])
        "sOme jOb").1 = "Entry Level" :=
  (c10_theorem (fun lv pg => if lv = 2 ∧ pg = 1 then ["Some  Job"] else [])
      "sOme jOb").2.2 2 "Entry Level" (by decide) (by decide)
    (by
      intro lv2 pg hl1 hl2 hp1 hp3
      interval_cases lv2
      · interval_cases pg <;> decide)
    ⟨1, by decide, by decide, by decide⟩ rfl
